import Mathlib

/-!
# Verification of the nSculpt task-definition scripts

Shallow embedding of the two scripts `src/infra/scripts/update_td.py` and
`src/infra/scripts/deploy_ecs.py`.  JSON values decoded by `json.load` are
modelled by `JVal`; Python dictionaries (which are produced by the JSON
decoder, hence tree-shaped, ordered and without duplicate keys) are
association lists `List (String × JVal)` in insertion order.  Python
exceptions (`KeyError`, `TypeError`, `AttributeError`) are modelled by
`PyErr` and fallible computations by `Except PyErr`.

The shared sanitise/retag transform (the body of `update_td` between
`json.load` and `json.dump`, duplicated inline in `deploy_ecs.deploy`
steps 2 and 3) is embedded as `update_td`.  Because the Python code stores
the input's `containerDefinitions` list in the output dictionary by
reference and then mutates each container dictionary in place, the
embedding returns a pair: the clean document AND the post-call state of
the caller's input document.
-/

set_option autoImplicit false

namespace NSculpt

/-- JSON values as decoded by Python's `json.load`. -/
inductive JVal where
  | null
  | bool (b : Bool)
  | num (n : Int)
  | str (s : String)
  | arr (xs : List JVal)
  | obj (fields : List (String × JVal))

/-- Python exceptions that the scripts can raise. -/
inductive PyErr where
  | keyError (k : String)
  | typeError
  | attributeError
  deriving DecidableEq

/-- First-match lookup in a Python dictionary (`d[k]` / `d.get(k)` on the
association-list model; JSON-decoded dictionaries have no duplicate keys,
so first match is the match). -/
def lookupKey (k : String) : List (String × JVal) → Option JVal
  | [] => none
  | (k', v) :: rest => if k' = k then some v else lookupKey k rest

/-- Python dictionary assignment `d[k] = v`: replaces the value at an
existing key in place (keeping its position), appends at the end for a
fresh key. -/
def setKey (k : String) (v : JVal) : List (String × JVal) → List (String × JVal)
  | [] => [(k, v)]
  | (k', v') :: rest => if k' = k then (k, v) :: rest else (k', v') :: setKey k v rest

/-- Python `s.split(sep)` for a one-character separator, on the character
list of the string: `''.split(':') = ['']`, `'a:b:c'.split(':') = ['a','b','c']`,
`':x'.split(':') = ['', 'x']`. -/
def pySplit (sep : Char) : List Char → List (List Char)
  | [] => [[]]
  | c :: cs =>
    match pySplit sep cs with
    | [] => [[]]
    | h :: t => if c = sep then [] :: h :: t else (c :: h) :: t

/-- `cd['image'].split(':')[0]` from the scripts: the text before the first
colon of the image string (the whole string when there is no colon). -/
def image_base (s : String) : String :=
  String.mk ((pySplit ':' s.data).headD [])

/-- The retagged image string `f"{image_base}:{new_image_tag}"`. -/
def retagImage (s new_image_tag : String) : String :=
  image_base s ++ ":" ++ new_image_tag

/-- One iteration of the image loop on a single element `cd` of the
`containerDefinitions` sequence:
`image_base = cd['image'].split(':')[0]; cd['image'] = f"{image_base}:{new_image_tag}"`.
A non-dictionary element raises `TypeError` at `cd['image']`, a dictionary
without `'image'` raises `KeyError('image')`, and a non-string image value
raises `AttributeError` at `.split`. -/
def retagCD (cd : JVal) (new_image_tag : String) : Except PyErr JVal :=
  match cd with
  | JVal.obj fs =>
    match lookupKey "image" fs with
    | none => Except.error (PyErr.keyError "image")
    | some (JVal.str s) =>
        Except.ok (JVal.obj (setKey "image" (JVal.str (retagImage s new_image_tag)) fs))
    | some _ => Except.error PyErr.attributeError
  | _ => Except.error PyErr.typeError

/-- The image loop over the elements of a `containerDefinitions` list, in
order; the first exception aborts the loop. -/
def retagList (new_image_tag : String) : List JVal → Except PyErr (List JVal)
  | [] => Except.ok []
  | cd :: rest =>
    match retagCD cd new_image_tag with
    | Except.error e => Except.error e
    | Except.ok cd' =>
      match retagList new_image_tag rest with
      | Except.error e => Except.error e
      | Except.ok rest' => Except.ok (cd' :: rest')

/-- `for cd in clean_td['containerDefinitions']: ...` on the stored value.
On a list it is `retagList`.  Iterating an empty dictionary or an empty
string performs no iterations (leaving the value as it is); iterating a
non-empty dictionary or string makes `cd` a string, and `cd['image']`
raises `TypeError`; every other value is not iterable (`TypeError`). -/
def retagContainers (v : JVal) (new_image_tag : String) : Except PyErr JVal :=
  match v with
  | JVal.arr cds => (retagList new_image_tag cds).map JVal.arr
  | JVal.obj [] => Except.ok (JVal.obj [])
  | JVal.obj (_ :: _) => Except.error PyErr.typeError
  | JVal.str s => if s = "" then Except.ok (JVal.str s) else Except.error PyErr.typeError
  | _ => Except.error PyErr.typeError

/-- The fixed allow-list of optional fields, exactly as in both scripts. -/
def api_fields : List String :=
  ["taskRoleArn", "executionRoleArn", "networkMode",
   "placementConstraints", "requiresCompatibilities",
   "cpu", "memory", "runtimePlatform"]

/-- `val = td.get(field); if val is not None: ...` — the value to copy for
one optional field: `some v` exactly when the field is present with a
non-null value (JSON `null` decodes to Python `None`, so a present-but-null
field is skipped like an absent one). -/
def isNull : JVal → Bool
  | JVal.null => true
  | _ => false

def optField (tfs : List (String × JVal)) (f : String) : Option JVal :=
  match lookupKey f tfs with
  | some v => if isNull v then none else some v
  | none => none

/-- The optional-field loop: for each field of `api_fields` in order,
append `(field, value)` to the clean dictionary when the field is present
and non-null (dictionary insertion order; the allow-list keys are distinct
from each other and from the three required keys, so each iteration
appends). -/
def optFields (tfs : List (String × JVal)) : List (String × JVal) :=
  api_fields.filterMap (fun f => (optField tfs f).map (fun v => (f, v)))

/-- The sanitise/retag transform shared by the two scripts: the body of
`update_td` between `json.load` and `json.dump` (with the envelope field
`data['taskDefinition']` already extracted), the same code appearing
inline in `deploy_ecs.deploy` steps 2 and 3.

Returns `(clean_td, td_after)`: the clean document, and the state of the
caller's document `td` after the call — the Python code stores the
input's `containerDefinitions` list in `clean_td` by reference and then
mutates each container dictionary in place, so after the call the
caller's `td` holds the retagged container definitions as well. -/
def update_td (td : JVal) (new_image_tag : String) : Except PyErr (JVal × JVal) :=
  match td with
  | JVal.obj tfs =>
    match lookupKey "family" tfs with
    | none => Except.error (PyErr.keyError "family")
    | some fam =>
      match lookupKey "containerDefinitions" tfs with
      | none => Except.error (PyErr.keyError "containerDefinitions")
      | some cds =>
        let volumes := (lookupKey "volumes" tfs).getD (JVal.arr [])
        match retagContainers cds new_image_tag with
        | Except.error e => Except.error e
        | Except.ok cds' =>
          Except.ok
            (JVal.obj ([("family", fam), ("containerDefinitions", cds'),
                        ("volumes", volumes)] ++ optFields tfs),
             JVal.obj (setKey "containerDefinitions" cds' tfs))
  | _ => Except.error PyErr.typeError

/-- `reg_data['taskDefinition']` and the like: subscripting an arbitrary
JSON value with a string key. -/
def getItem (v : JVal) (k : String) : Except PyErr JVal :=
  match v with
  | JVal.obj fs =>
    match lookupKey k fs with
    | some x => Except.ok x
    | none => Except.error (PyErr.keyError k)
  | _ => Except.error PyErr.typeError

/-- Result of one external CLI call in `deploy_ecs.py`: `err stderr` models
`res.returncode != 0`, `ok payload` models a zero return code with
`json.loads(res.stdout)` already applied where the script parses the
output. -/
inductive ExtResult where
  | err (stderr : String)
  | ok (payload : JVal)

/-- The external collaborator reached through the `aws` CLI: the three
opaque operations of `deploy_ecs.deploy`. -/
structure Env where
  describe : String → ExtResult
  register : JVal → ExtResult
  updateService : String → JVal → ExtResult

/-- The graceful ways one `deploy` call can end: an early `return` after
printing one of the three error diagnostics, or full success. -/
inductive DeployOutcome where
  | describeFailed (stderr : String)
  | registerFailed (stderr : String)
  | updateFailed (stderr : String)
  | success (arn : JVal)

/-- The diagnostic `deploy` prints for an outcome, from the `print`
calls in `deploy_ecs.py`. -/
def deployReport (service_name : String) : DeployOutcome → String
  | DeployOutcome.describeFailed e => "Error describing TD: " ++ e
  | DeployOutcome.registerFailed e => "Error registering TD: " ++ e
  | DeployOutcome.updateFailed e => "Error updating service: " ++ e
  | DeployOutcome.success _ => "Service " ++ service_name ++ " updated successfully!"

/-- `deploy_ecs.deploy(service_name)`: describe the task definition, build
and retag the new document (the code shared with `update_td`), register
it, update the service.  `Except.ok outcome` is a graceful return (each
failed external call prints its diagnostic and returns), `Except.error e`
is an uncaught Python exception escaping `deploy`. -/
def deploy (env : Env) (service_name : String) : Except PyErr DeployOutcome :=
  match env.describe service_name with
  | ExtResult.err e => Except.ok (DeployOutcome.describeFailed e)
  | ExtResult.ok data =>
    match getItem data "taskDefinition" with
    | Except.error e => Except.error e
    | Except.ok td =>
      match update_td td "202601151258" with
      | Except.error e => Except.error e
      | Except.ok r =>
        match env.register r.1 with
        | ExtResult.err e => Except.ok (DeployOutcome.registerFailed e)
        | ExtResult.ok reg_data =>
          match getItem reg_data "taskDefinition" with
          | Except.error e => Except.error e
          | Except.ok tdo =>
            match getItem tdo "taskDefinitionArn" with
            | Except.error e => Except.error e
            | Except.ok arn =>
              match env.updateService service_name arn with
              | ExtResult.err e => Except.ok (DeployOutcome.updateFailed e)
              | ExtResult.ok _ => Except.ok (DeployOutcome.success arn)

/-- The `__main__` block of `deploy_ecs.py` generalised to a caller-supplied
service list (the script calls `deploy` once per hardcoded name, in
order): sequential `deploy` calls, where an uncaught exception in one call
aborts the whole run. -/
def deployAll (env : Env) : List String → Except PyErr (List DeployOutcome)
  | [] => Except.ok []
  | s :: rest =>
    match deploy env s with
    | Except.error e => Except.error e
    | Except.ok r =>
      match deployAll env rest with
      | Except.error e => Except.error e
      | Except.ok rs => Except.ok (r :: rs)

/-- The hardcoded service list of `deploy_ecs.py`'s `__main__` block. -/
def mainServices : List String := ["parrot-dev-backend", "parrot-dev-frontend"]

/-- Running `deploy_ecs.py` as a script. -/
def deployMain (env : Env) : Except PyErr (List DeployOutcome) :=
  deployAll env mainServices

/-! ## Concrete example values used to exercise the definitions -/

/-- Fields of an example raw task-definition document: two containers
(one image with a tag, one without), a platform-assigned read-only field
(`revision`), one optional field set (`cpu`) and one explicitly null
(`memory`). -/
def tdWfs : List (String × JVal) :=
  [("family", JVal.str "f"),
   ("containerDefinitions",
     JVal.arr [JVal.obj [("name", JVal.str "c1"), ("image", JVal.str "a:1")],
               JVal.obj [("image", JVal.str "b")]]),
   ("revision", JVal.num 7),
   ("cpu", JVal.str "256"),
   ("memory", JVal.null)]

/-- The example document itself. -/
def tdW : JVal := JVal.obj tdWfs

/-- The clean document the transform produces from `tdW` with tag `abc123`. -/
def cleanW : JVal :=
  JVal.obj
    [("family", JVal.str "f"),
     ("containerDefinitions",
       JVal.arr [JVal.obj [("name", JVal.str "c1"), ("image", JVal.str "a:abc123")],
                 JVal.obj [("image", JVal.str "b:abc123")]]),
     ("volumes", JVal.arr []),
     ("cpu", JVal.str "256")]

/-- The state of `tdW` after the transform: its container definitions have
been retagged in place through the alias. -/
def tdAW : JVal :=
  JVal.obj
    [("family", JVal.str "f"),
     ("containerDefinitions",
       JVal.arr [JVal.obj [("name", JVal.str "c1"), ("image", JVal.str "a:abc123")],
                 JVal.obj [("image", JVal.str "b:abc123")]]),
     ("revision", JVal.num 7),
     ("cpu", JVal.str "256"),
     ("memory", JVal.null)]

/-- A minimal document with a single container. -/
def tdC : JVal :=
  JVal.obj [("family", JVal.str "f"),
            ("containerDefinitions", JVal.arr [JVal.obj [("image", JVal.str "a:1")]])]

/-- The clean document from `tdC` with tag `2`. -/
def cleanC : JVal :=
  JVal.obj [("family", JVal.str "f"),
            ("containerDefinitions", JVal.arr [JVal.obj [("image", JVal.str "a:2")]]),
            ("volumes", JVal.arr [])]

/-- The state of `tdC` after the transform with tag `2`: mutated in place. -/
def tdAC : JVal :=
  JVal.obj [("family", JVal.str "f"),
            ("containerDefinitions", JVal.arr [JVal.obj [("image", JVal.str "a:2")]])]

/-- An environment in which every external call fails. -/
def envA : Env :=
  ⟨fun _ => ExtResult.err "boom", fun _ => ExtResult.err "boom", fun _ _ => ExtResult.err "boom"⟩

/-- An environment whose describe call succeeds but returns a task
definition missing the required `family` field. -/
def envC : Env :=
  ⟨fun _ => ExtResult.ok (JVal.obj [("taskDefinition",
      JVal.obj [("containerDefinitions", JVal.arr [])])]),
   fun _ => ExtResult.err "unused", fun _ _ => ExtResult.err "unused"⟩

/-! ## Lemmas about the embedded string operations -/

theorem pySplit_ne_nil (sep : Char) (cs : List Char) : pySplit sep cs ≠ [] := by
  cases cs with
  | nil => simp [pySplit]
  | cons c cs' =>
    unfold pySplit
    cases hp : pySplit sep cs' with
    | nil => simp
    | cons h t => by_cases hc : c = sep <;> simp [hc]

theorem pySplit_headD (sep : Char) (cs : List Char) :
    (pySplit sep cs).headD [] = cs.takeWhile (fun c => c != sep) := by
  induction cs with
  | nil => simp [pySplit]
  | cons c cs ih =>
    unfold pySplit
    cases hp : pySplit sep cs with
    | nil => exact absurd hp (pySplit_ne_nil sep cs)
    | cons h t =>
      rw [hp] at ih
      simp only [List.headD_cons] at ih
      by_cases hc : c = sep
      · simp [hc, List.takeWhile_cons]
      · simp [hc, List.takeWhile_cons, ih]

theorem image_base_data (s : String) :
    (image_base s).data = s.data.takeWhile (fun c => c != ':') := by
  show (pySplit ':' s.data).headD [] = _
  exact pySplit_headD ':' s.data

theorem retagImage_data (s t : String) :
    (retagImage s t).data = s.data.takeWhile (fun c => c != ':') ++ ':' :: t.data := by
  show (image_base s ++ ":" ++ t).data = _
  rw [String.data_append, String.data_append, image_base_data]
  simp

theorem takeWhile_append_cons {α : Type} (p : α → Bool) (xs : List α) (y : α) (ys : List α)
    (hxs : ∀ x ∈ xs, p x = true) (hy : p y = false) :
    (xs ++ y :: ys).takeWhile p = xs := by
  induction xs with
  | nil => simp [List.takeWhile_cons, hy]
  | cons x xs ih =>
    have hx : p x = true := hxs x (by simp)
    simp [List.takeWhile_cons, hx, ih fun a ha => hxs a (by simp [ha])]

theorem image_base_retagImage (s t : String) : image_base (retagImage s t) = image_base s := by
  apply String.ext
  rw [image_base_data, retagImage_data, image_base_data]
  exact takeWhile_append_cons (fun c => c != ':') (s.data.takeWhile (fun c => c != ':'))
    ':' t.data (fun x hx => @List.mem_takeWhile_imp _ (fun c => c != ':') _ x hx) (by simp)

theorem retagImage_idem (s t : String) : retagImage (retagImage s t) t = retagImage s t := by
  show image_base (retagImage s t) ++ ":" ++ t = _
  rw [image_base_retagImage]
  rfl

theorem image_base_of_no_colon (s : String) (h : ∀ c ∈ s.data, c ≠ ':') : image_base s = s := by
  apply String.ext
  rw [image_base_data]
  exact List.takeWhile_eq_self_iff.mpr (fun c hc => by simpa using h c hc)

/-! ## Lemmas about the embedded dictionary operations -/

theorem lookupKey_setKey_self (k : String) (v : JVal) (fs : List (String × JVal)) :
    lookupKey k (setKey k v fs) = some v := by
  induction fs with
  | nil => simp [setKey, lookupKey]
  | cons p fs ih =>
    obtain ⟨k', v'⟩ := p
    by_cases h : k' = k
    · simp [setKey, lookupKey, h]
    · simp [setKey, lookupKey, h, ih]

theorem lookupKey_setKey_ne (k k' : String) (v : JVal) (fs : List (String × JVal))
    (hne : k' ≠ k) : lookupKey k' (setKey k v fs) = lookupKey k' fs := by
  induction fs with
  | nil =>
    have hk : ¬k = k' := fun h => hne h.symm
    simp [setKey, lookupKey, hk]
  | cons p fs ih =>
    obtain ⟨k₁, v₁⟩ := p
    by_cases h : k₁ = k
    · subst h
      have hk : ¬k₁ = k' := fun h => hne h.symm
      simp [setKey, lookupKey, hk]
    · simp [setKey, lookupKey, h, ih]

theorem setKey_setKey (k : String) (v w : JVal) (fs : List (String × JVal)) :
    setKey k w (setKey k v fs) = setKey k w fs := by
  induction fs with
  | nil => simp [setKey]
  | cons p fs ih =>
    obtain ⟨k₁, v₁⟩ := p
    by_cases h : k₁ = k
    · simp [setKey, h]
    · simp [setKey, h, ih]

theorem map_fst_setKey (k : String) (v : JVal) (fs : List (String × JVal))
    (h : (lookupKey k fs).isSome = true) :
    (setKey k v fs).map Prod.fst = fs.map Prod.fst := by
  induction fs with
  | nil => simp [lookupKey] at h
  | cons p fs ih =>
    obtain ⟨k₁, v₁⟩ := p
    by_cases hk : k₁ = k
    · simp [setKey, hk]
    · simp only [lookupKey, if_neg hk] at h
      simp [setKey, hk, ih h]

theorem lookupKey_append (k : String) (xs ys : List (String × JVal)) :
    lookupKey k (xs ++ ys) =
      match lookupKey k xs with
      | some v => some v
      | none => lookupKey k ys := by
  induction xs with
  | nil => simp [lookupKey]
  | cons p xs ih =>
    obtain ⟨k', v'⟩ := p
    by_cases h : k' = k <;> simp [lookupKey, h, ih]

/-! ## Lemmas about the optional-field loop -/

theorem lookupKey_filterMap_not_mem (keys : List String) (g : String → Option JVal)
    (f : String) (hf : f ∉ keys) :
    lookupKey f (keys.filterMap fun k => (g k).map fun v => (k, v)) = none := by
  induction keys with
  | nil => simp [lookupKey]
  | cons k keys ih =>
    have hfk : ¬k = f := fun h => hf (by simp [h])
    have hf' : f ∉ keys := fun h => hf (by simp [h])
    simp only [List.filterMap_cons]
    cases hg : g k with
    | none => exact ih hf'
    | some v => simp [lookupKey, hfk, ih hf']

theorem lookupKey_filterMap_mem (keys : List String) (g : String → Option JVal)
    (f : String) (hnd : keys.Nodup) (hf : f ∈ keys) :
    lookupKey f (keys.filterMap fun k => (g k).map fun v => (k, v)) = g f := by
  induction keys with
  | nil => simp at hf
  | cons k keys ih =>
    rw [List.nodup_cons] at hnd
    simp only [List.filterMap_cons]
    by_cases hkf : k = f
    · subst hkf
      cases hg : g k with
      | none => exact lookupKey_filterMap_not_mem keys g k hnd.1
      | some v => simp [lookupKey]
    · have hf' : f ∈ keys := by
        rcases List.mem_cons.mp hf with h | h
        · exact absurd h.symm hkf
        · exact h
      cases hg : g k with
      | none => exact ih hnd.2 hf'
      | some v => simp [lookupKey, hkf, ih hnd.2 hf']

theorem map_fst_filterMap (keys : List String) (g : String → Option JVal) :
    (keys.filterMap fun k => (g k).map fun v => (k, v)).map Prod.fst
      = keys.filter fun k => (g k).isSome := by
  induction keys with
  | nil => simp
  | cons k keys ih =>
    simp only [List.filterMap_cons, List.filter_cons]
    cases hg : g k with
    | none => simpa [hg] using ih
    | some v => simpa [hg] using ih

theorem api_fields_nodup : api_fields.Nodup := by decide

theorem lookupKey_optFields (tfs : List (String × JVal)) (f : String) (hf : f ∈ api_fields) :
    lookupKey f (optFields tfs) = optField tfs f :=
  lookupKey_filterMap_mem api_fields (optField tfs) f api_fields_nodup hf

theorem lookupKey_optFields_not_mem (tfs : List (String × JVal)) (f : String)
    (hf : f ∉ api_fields) : lookupKey f (optFields tfs) = none :=
  lookupKey_filterMap_not_mem api_fields (optField tfs) f hf

theorem map_fst_optFields (tfs : List (String × JVal)) :
    (optFields tfs).map Prod.fst = api_fields.filter fun f => (optField tfs f).isSome :=
  map_fst_filterMap api_fields (optField tfs)

theorem isNull_eq_false_iff (v : JVal) : isNull v = false ↔ v ≠ JVal.null := by
  cases v <;> simp [isNull]

theorem optField_isSome_iff (tfs : List (String × JVal)) (f : String) :
    (optField tfs f).isSome = true ↔
      ∃ v, lookupKey f tfs = some v ∧ v ≠ JVal.null := by
  unfold optField
  cases h : lookupKey f tfs with
  | none => simp
  | some v => cases v <;> simp [isNull]

theorem optField_ne_null (tfs : List (String × JVal)) (f : String) (v : JVal)
    (h : optField tfs f = some v) : lookupKey f tfs = some v ∧ v ≠ JVal.null := by
  unfold optField at h
  cases hl : lookupKey f tfs with
  | none => rw [hl] at h; exact absurd h (by simp)
  | some w =>
    rw [hl] at h
    have h' : (if isNull w = true then none else some w) = some v := h
    by_cases hn : isNull w = true
    · rw [if_pos hn] at h'; exact absurd h' (by simp)
    · rw [if_neg hn] at h'
      cases h'
      exact ⟨rfl, (isNull_eq_false_iff v).mp (by simpa using hn)⟩

/-! ## Characterisation of a successful transform -/

theorem update_td_ok_elim (td : JVal) (t : String) (clean tdA : JVal)
    (h : update_td td t = Except.ok (clean, tdA)) :
    ∃ tfs fam cds cds',
      td = JVal.obj tfs ∧
      lookupKey "family" tfs = some fam ∧
      lookupKey "containerDefinitions" tfs = some cds ∧
      retagContainers cds t = Except.ok cds' ∧
      clean = JVal.obj ([("family", fam), ("containerDefinitions", cds'),
                         ("volumes", (lookupKey "volumes" tfs).getD (JVal.arr []))]
                        ++ optFields tfs) ∧
      tdA = JVal.obj (setKey "containerDefinitions" cds' tfs) := by
  cases td with
  | obj tfs =>
    simp only [update_td] at h
    cases hfam : lookupKey "family" tfs with
    | none => simp only [hfam] at h; exact Except.noConfusion h
    | some fam =>
      simp only [hfam] at h
      cases hcds : lookupKey "containerDefinitions" tfs with
      | none => simp only [hcds] at h; exact Except.noConfusion h
      | some cds =>
        simp only [hcds] at h
        cases hrt : retagContainers cds t with
        | error e => simp only [hrt] at h; exact Except.noConfusion h
        | ok cds' =>
          simp only [hrt, Except.ok.injEq, Prod.mk.injEq] at h
          exact ⟨tfs, fam, cds, cds', rfl, hfam, hcds, hrt, h.1.symm, h.2.symm⟩
  | null => exact absurd h (by simp [update_td])
  | bool b => exact absurd h (by simp [update_td])
  | num n => exact absurd h (by simp [update_td])
  | str s => exact absurd h (by simp [update_td])
  | arr xs => exact absurd h (by simp [update_td])

/-! ## Lemmas about the image loop -/

theorem retagCD_ok_elim (cd : JVal) (t : String) (cd' : JVal)
    (h : retagCD cd t = Except.ok cd') :
    ∃ fs s, cd = JVal.obj fs ∧ lookupKey "image" fs = some (JVal.str s) ∧
      cd' = JVal.obj (setKey "image" (JVal.str (retagImage s t)) fs) := by
  cases cd with
  | obj fs =>
    simp only [retagCD] at h
    cases himg : lookupKey "image" fs with
    | none => simp only [himg] at h; exact Except.noConfusion h
    | some v =>
      cases v with
      | str s =>
        simp only [himg, Except.ok.injEq] at h
        exact ⟨fs, s, rfl, himg, h.symm⟩
      | null => simp only [himg] at h; exact Except.noConfusion h
      | bool b => simp only [himg] at h; exact Except.noConfusion h
      | num n => simp only [himg] at h; exact Except.noConfusion h
      | arr xs => simp only [himg] at h; exact Except.noConfusion h
      | obj gs => simp only [himg] at h; exact Except.noConfusion h
  | null => exact Except.noConfusion h
  | bool b => exact Except.noConfusion h
  | num n => exact Except.noConfusion h
  | str s => exact Except.noConfusion h
  | arr xs => exact Except.noConfusion h

theorem retagCD_idem (cd cd' : JVal) (t : String) (h : retagCD cd t = Except.ok cd') :
    retagCD cd' t = Except.ok cd' := by
  obtain ⟨fs, s, rfl, himg, rfl⟩ := retagCD_ok_elim cd t cd' h
  simp only [retagCD, lookupKey_setKey_self]
  rw [retagImage_idem, setKey_setKey]

theorem retagList_forall₂ (t : String) (cds cds' : List JVal)
    (h : retagList t cds = Except.ok cds') :
    List.Forall₂ (fun cd cd' => retagCD cd t = Except.ok cd') cds cds' := by
  induction cds generalizing cds' with
  | nil =>
    simp only [retagList, Except.ok.injEq] at h
    subst h
    exact List.Forall₂.nil
  | cons cd rest ih =>
    simp only [retagList] at h
    cases hcd : retagCD cd t with
    | error e => simp only [hcd] at h; exact Except.noConfusion h
    | ok c' =>
      simp only [hcd] at h
      cases hrest : retagList t rest with
      | error e => simp only [hrest] at h; exact Except.noConfusion h
      | ok rest' =>
        simp only [hrest, Except.ok.injEq] at h
        subst h
        exact List.Forall₂.cons hcd (ih rest' hrest)

theorem retagList_idem (t : String) (cds cds' : List JVal)
    (h : retagList t cds = Except.ok cds') : retagList t cds' = Except.ok cds' := by
  induction cds generalizing cds' with
  | nil =>
    simp only [retagList, Except.ok.injEq] at h
    subst h
    rfl
  | cons cd rest ih =>
    simp only [retagList] at h
    cases hcd : retagCD cd t with
    | error e => simp only [hcd] at h; exact Except.noConfusion h
    | ok c' =>
      simp only [hcd] at h
      cases hrest : retagList t rest with
      | error e => simp only [hrest] at h; exact Except.noConfusion h
      | ok rest' =>
        simp only [hrest, Except.ok.injEq] at h
        subst h
        simp only [retagList, retagCD_idem cd c' t hcd, ih rest' hrest]

theorem retagContainers_arr_elim (cds : List JVal) (t : String) (v : JVal)
    (h : retagContainers (JVal.arr cds) t = Except.ok v) :
    ∃ cds', retagList t cds = Except.ok cds' ∧ v = JVal.arr cds' := by
  simp only [retagContainers, Except.map] at h
  cases hl : retagList t cds with
  | error e => simp only [hl] at h; exact Except.noConfusion h
  | ok cds' =>
    simp only [hl, Except.ok.injEq] at h
    exact ⟨cds', rfl, h.symm⟩

theorem retagContainers_idem (v v' : JVal) (t : String)
    (h : retagContainers v t = Except.ok v') : retagContainers v' t = Except.ok v' := by
  cases v with
  | arr cds =>
    obtain ⟨cds', hl, rfl⟩ := retagContainers_arr_elim cds t v' h
    simp only [retagContainers, Except.map, retagList_idem t cds cds' hl]
  | obj fs =>
    cases fs with
    | nil =>
      have h' : Except.ok (JVal.obj []) = Except.ok v' := h
      cases h'
      rfl
    | cons p fs' => exact Except.noConfusion h
  | str s =>
    by_cases hs : s = ""
    · subst hs
      have h' : (Except.ok (JVal.str "") : Except PyErr JVal) = Except.ok v' := by
        simpa [retagContainers] using h
      cases h'
      simp [retagContainers]
    · have h' : (Except.error PyErr.typeError : Except PyErr JVal) = Except.ok v' := by
        simp only [retagContainers, if_neg hs] at h
        exact h
      exact Except.noConfusion h'
  | null => exact Except.noConfusion h
  | bool b => exact Except.noConfusion h
  | num n => exact Except.noConfusion h

/-! ## Claim C1 -/

/-- C1: whenever the sanitise/retag transform produces a clean document,
that document contains exactly the keys `family`, `containerDefinitions`
and `volumes` followed by exactly those allow-list optional fields that
are present and non-null in the input, in the allow-list order; an absent
or null optional field contributes no key, and no key outside this set
appears. -/
theorem clean_td_exact_keys (td : JVal) (tag : String) (clean tdA : JVal)
    (h : update_td td tag = Except.ok (clean, tdA)) :
    ∃ tfs cfs, td = JVal.obj tfs ∧ clean = JVal.obj cfs ∧
      cfs.map Prod.fst
        = ["family", "containerDefinitions", "volumes"]
          ++ api_fields.filter (fun f => (optField tfs f).isSome) ∧
      ∀ f : String, (optField tfs f).isSome = true ↔
        ∃ v, lookupKey f tfs = some v ∧ v ≠ JVal.null := by
  obtain ⟨tfs, fam, cds, cds', rfl, hfam, hcds, hrt, rfl, rfl⟩ :=
    update_td_ok_elim td tag clean tdA h
  refine ⟨tfs, _, rfl, rfl, ?_, fun f => optField_isSome_iff tfs f⟩
  simp [map_fst_optFields]

/-- C1 witness: the key property evaluated on the concrete document `tdW`. -/
theorem clean_td_exact_keys_witness :
    ∃ tfs cfs, tdW = JVal.obj tfs ∧ cleanW = JVal.obj cfs ∧
      cfs.map Prod.fst
        = ["family", "containerDefinitions", "volumes"]
          ++ api_fields.filter (fun f => (optField tfs f).isSome) ∧
      ∀ f : String, (optField tfs f).isSome = true ↔
        ∃ v, lookupKey f tfs = some v ∧ v ≠ JVal.null :=
  clean_td_exact_keys tdW "abc123" cleanW tdAW rfl

/-! ## Claim C4 -/

/-- C4: when a required field (`family` or `containerDefinitions`) is
absent from the input document, the transform fails with a missing-key
error (Python `KeyError`, the realisation of the spec's
`MissingFieldError`) that names a missing required key. -/
theorem missing_required_field_error (tfs : List (String × JVal)) (tag : String)
    (h : lookupKey "family" tfs = none ∨ lookupKey "containerDefinitions" tfs = none) :
    ∃ k, (k = "family" ∨ k = "containerDefinitions") ∧ lookupKey k tfs = none ∧
      update_td (JVal.obj tfs) tag = Except.error (PyErr.keyError k) := by
  cases hfam : lookupKey "family" tfs with
  | none => exact ⟨"family", Or.inl rfl, hfam, by simp [update_td, hfam]⟩
  | some fam =>
    have hcds : lookupKey "containerDefinitions" tfs = none := by
      rcases h with h | h
      · rw [hfam] at h; exact Option.noConfusion h
      · exact h
    exact ⟨"containerDefinitions", Or.inr rfl, hcds, by simp [update_td, hfam, hcds]⟩

/-- C4 witness: a document without `family` makes the transform fail with
an error naming the missing key. -/
theorem missing_required_field_error_witness :
    ∃ k, (k = "family" ∨ k = "containerDefinitions") ∧
      lookupKey k [("containerDefinitions", JVal.arr [])] = none ∧
      update_td (JVal.obj [("containerDefinitions", JVal.arr [])]) "abc123"
        = Except.error (PyErr.keyError k) :=
  missing_required_field_error [("containerDefinitions", JVal.arr [])] "abc123" (Or.inl rfl)

/-! ## Claim C10 -/

theorem retagList_missing_image (tag : String) (pre post : List JVal)
    (cdfs : List (String × JVal))
    (hpre : ∀ cd ∈ pre, ∃ gfs s, cd = JVal.obj gfs ∧
      lookupKey "image" gfs = some (JVal.str s))
    (himg : lookupKey "image" cdfs = none) :
    retagList tag (pre ++ JVal.obj cdfs :: post) = Except.error (PyErr.keyError "image") := by
  induction pre with
  | nil => simp [retagList, retagCD, himg]
  | cons cd rest ih =>
    obtain ⟨gfs, s, hcd, himg'⟩ := hpre cd (by simp)
    subst hcd
    simp [retagList, retagCD, himg', ih (fun c hc => hpre c (by simp [hc]))]

/-- C10: a container definition without an `image` key makes the transform
raise a missing-key fault (`KeyError('image')`) instead of passing the
container through: here for the first container lacking the key, with
every earlier container well-formed. -/
theorem missing_image_key_error (tfs : List (String × JVal)) (tag : String)
    (fam : JVal) (pre post : List JVal) (cdfs : List (String × JVal))
    (hfam : lookupKey "family" tfs = some fam)
    (hcds : lookupKey "containerDefinitions" tfs
      = some (JVal.arr (pre ++ JVal.obj cdfs :: post)))
    (hpre : ∀ cd ∈ pre, ∃ gfs s, cd = JVal.obj gfs ∧
      lookupKey "image" gfs = some (JVal.str s))
    (himg : lookupKey "image" cdfs = none) :
    update_td (JVal.obj tfs) tag = Except.error (PyErr.keyError "image") := by
  simp [update_td, hfam, hcds, retagContainers, Except.map,
    retagList_missing_image tag pre post cdfs hpre himg]

/-- C10 witness: a two-container document whose second container lacks
`image` fails with `KeyError('image')`. -/
theorem missing_image_key_error_witness :
    update_td (JVal.obj [("family", JVal.str "f"),
        ("containerDefinitions",
          JVal.arr [JVal.obj [("image", JVal.str "a:1")], JVal.obj [("name", JVal.str "c2")]])])
        "abc123"
      = Except.error (PyErr.keyError "image") :=
  missing_image_key_error
    [("family", JVal.str "f"),
     ("containerDefinitions",
       JVal.arr [JVal.obj [("image", JVal.str "a:1")], JVal.obj [("name", JVal.str "c2")]])]
    "abc123" (JVal.str "f") [JVal.obj [("image", JVal.str "a:1")]] []
    [("name", JVal.str "c2")] rfl rfl
    (by
      intro cd hcd
      simp only [List.mem_singleton] at hcd
      subst hcd
      exact ⟨[("image", JVal.str "a:1")], "a:1", rfl, rfl⟩)
    rfl

/-! ## Claim C5 -/

/-- C5 counterexample: with an empty `new_tag` the transform does not fail
at all (so in particular it does not raise an `InvalidTagError`); it
succeeds and produces images of the form `<prefix>:`. -/
theorem empty_tag_accepted_counterexample :
    update_td (JVal.obj [("family", JVal.str "f"),
        ("containerDefinitions", JVal.arr [JVal.obj [("image", JVal.str "repo:old")]])]) ""
      = Except.ok
          (JVal.obj [("family", JVal.str "f"),
             ("containerDefinitions", JVal.arr [JVal.obj [("image", JVal.str "repo:")]]),
             ("volumes", JVal.arr [])],
           JVal.obj [("family", JVal.str "f"),
             ("containerDefinitions", JVal.arr [JVal.obj [("image", JVal.str "repo:")]])]) := rfl

@[simp]
theorem except_isOk_ok {α : Type} (a : α) : (Except.ok a : Except PyErr α).isOk = true := rfl

@[simp]
theorem except_isOk_error {α : Type} (e : PyErr) :
    (Except.error e : Except PyErr α).isOk = false := rfl

theorem retagCD_isOk_tag (cd : JVal) (t₁ t₂ : String) :
    (retagCD cd t₁).isOk = (retagCD cd t₂).isOk := by
  cases cd with
  | obj fs =>
    cases h : lookupKey "image" fs with
    | none => simp [retagCD, h]
    | some v => cases v <;> simp [retagCD, h]
  | null => rfl
  | bool b => rfl
  | num n => rfl
  | str s => rfl
  | arr xs => rfl

theorem retagList_isOk_tag (cds : List JVal) (t₁ t₂ : String) :
    (retagList t₁ cds).isOk = (retagList t₂ cds).isOk := by
  induction cds with
  | nil => rfl
  | cons cd rest ih =>
    have hcd := retagCD_isOk_tag cd t₁ t₂
    cases h1 : retagCD cd t₁ with
    | error e =>
      cases h2 : retagCD cd t₂ with
      | error e' => simp [retagList, h1, h2]
      | ok c' => rw [h1, h2] at hcd; exact absurd hcd (by simp [Except.isOk])
    | ok c' =>
      cases h2 : retagCD cd t₂ with
      | error e' => rw [h1, h2] at hcd; exact absurd hcd (by simp [Except.isOk])
      | ok c'' =>
        cases hr1 : retagList t₁ rest with
        | error e =>
          cases hr2 : retagList t₂ rest with
          | error e' => simp [retagList, h1, h2, hr1, hr2]
          | ok rs =>
            rw [hr1, hr2] at ih
            exact absurd ih (by simp [Except.isOk])
        | ok rs =>
          cases hr2 : retagList t₂ rest with
          | error e' =>
            rw [hr1, hr2] at ih
            exact absurd ih (by simp [Except.isOk])
          | ok rs' => simp [retagList, h1, h2, hr1, hr2, Except.isOk]

theorem retagContainers_isOk_tag (v : JVal) (t₁ t₂ : String) :
    (retagContainers v t₁).isOk = (retagContainers v t₂).isOk := by
  cases v with
  | arr cds =>
    have h := retagList_isOk_tag cds t₁ t₂
    cases h1 : retagList t₁ cds with
    | error e =>
      cases h2 : retagList t₂ cds with
      | error e' => simp [retagContainers, h1, h2, Except.map]
      | ok rs => rw [h1, h2] at h; exact absurd h (by simp [Except.isOk])
    | ok rs =>
      cases h2 : retagList t₂ cds with
      | error e' => rw [h1, h2] at h; exact absurd h (by simp [Except.isOk])
      | ok rs' => simp [retagContainers, h1, h2, Except.map]
  | obj fs => cases fs <;> rfl
  | null => rfl
  | bool b => rfl
  | num n => rfl
  | str s => by_cases hs : s = "" <;> simp [retagContainers, hs]

/-- C5 (amended): the transform performs no validation on `new_tag` at
all — whether it succeeds or fails never depends on the tag (so an empty
tag raises nothing), and with an empty tag every image is rewritten to
`<prefix>:`. -/
theorem no_tag_validation :
    (∀ (td : JVal) (t₁ t₂ : String), (update_td td t₁).isOk = (update_td td t₂).isOk)
    ∧ (∀ s : String, retagImage s "" = image_base s ++ ":") := by
  constructor
  · intro td t₁ t₂
    cases td with
    | obj tfs =>
      cases hfam : lookupKey "family" tfs with
      | none => simp [update_td, hfam]
      | some fam =>
        cases hcds : lookupKey "containerDefinitions" tfs with
        | none => simp [update_td, hfam, hcds]
        | some cds =>
          have h := retagContainers_isOk_tag cds t₁ t₂
          cases h1 : retagContainers cds t₁ with
          | error e =>
            cases h2 : retagContainers cds t₂ with
            | error e' => simp [update_td, hfam, hcds, h1, h2]
            | ok w => rw [h1, h2] at h; exact absurd h (by simp [Except.isOk])
          | ok w =>
            cases h2 : retagContainers cds t₂ with
            | error e' => rw [h1, h2] at h; exact absurd h (by simp [Except.isOk])
            | ok w' => simp [update_td, hfam, hcds, h1, h2, Except.isOk]
    | null => rfl
    | bool b => rfl
    | num n => rfl
    | str s => rfl
    | arr xs => rfl
  · intro s
    apply String.ext
    simp [retagImage, String.data_append]

/-! ## Claim C2 -/

/-- C2: every container definition's image is independently replaced by
`<prefix>:<new_tag>`, where the prefix is the text before the first colon
of the original image (the whole string when there is no colon); in
particular `repo:oldtag` becomes `repo:abc123` and `repo` becomes
`repo:abc123`, and the repository-reference prefix is unchanged by the
transform. -/
theorem image_retag_per_container :
    (∀ s t : String, retagImage s t = image_base s ++ ":" ++ t)
    ∧ (∀ s : String, (image_base s).data = s.data.takeWhile (fun c => c != ':'))
    ∧ (∀ s t : String, (∀ c ∈ s.data, c ≠ ':') → retagImage s t = s ++ ":" ++ t)
    ∧ retagImage "repo:oldtag" "abc123" = "repo:abc123"
    ∧ retagImage "repo" "abc123" = "repo:abc123"
    ∧ (∀ s t : String, image_base (retagImage s t) = image_base s)
    ∧ (∀ (tag : String) (clean tdA : JVal) (tfs : List (String × JVal)) (cds : List JVal),
        update_td (JVal.obj tfs) tag = Except.ok (clean, tdA) →
        lookupKey "containerDefinitions" tfs = some (JVal.arr cds) →
        ∃ cfs cds', clean = JVal.obj cfs ∧
          lookupKey "containerDefinitions" cfs = some (JVal.arr cds') ∧
          List.Forall₂ (fun cd cd' => ∃ gfs s, cd = JVal.obj gfs ∧
            lookupKey "image" gfs = some (JVal.str s) ∧
            cd' = JVal.obj (setKey "image" (JVal.str (retagImage s tag)) gfs)) cds cds') := by
  refine ⟨fun s t => rfl, image_base_data, ?_, rfl, rfl, image_base_retagImage, ?_⟩
  · intro s t h
    show image_base s ++ ":" ++ t = s ++ ":" ++ t
    rw [image_base_of_no_colon s h]
  · intro tag clean tdA tfs cds h hcds
    obtain ⟨tfs', fam, cds0, cds'v, heq, hfam, hcds0, hrt, rfl, rfl⟩ :=
      update_td_ok_elim _ tag clean tdA h
    injection heq with htfs
    subst htfs
    rw [hcds0] at hcds
    injection hcds with hc
    subst hc
    obtain ⟨cds', hrl, rfl⟩ := retagContainers_arr_elim cds tag cds'v hrt
    refine ⟨_, cds', rfl, by simp [lookupKey], ?_⟩
    exact (retagList_forall₂ tag cds cds' hrl).imp
      (fun a b hab => retagCD_ok_elim a tag b hab)

/-- C2 witness: the per-container retag property evaluated on `tdW`. -/
theorem image_retag_per_container_witness :
    ∃ cfs cds', cleanW = JVal.obj cfs ∧
      lookupKey "containerDefinitions" cfs = some (JVal.arr cds') ∧
      List.Forall₂ (fun cd cd' => ∃ gfs s, cd = JVal.obj gfs ∧
        lookupKey "image" gfs = some (JVal.str s) ∧
        cd' = JVal.obj (setKey "image" (JVal.str (retagImage s "abc123")) gfs))
        [JVal.obj [("name", JVal.str "c1"), ("image", JVal.str "a:1")],
         JVal.obj [("image", JVal.str "b")]] cds' :=
  image_retag_per_container.2.2.2.2.2.2 "abc123" cleanW tdAW tdWfs
    [JVal.obj [("name", JVal.str "c1"), ("image", JVal.str "a:1")],
     JVal.obj [("image", JVal.str "b")]] rfl rfl

/-! ## Claim C3 -/

/-- C3 counterexample: the transform is not pure and the output's
container sequence is not a deep copy: on `tdC` with tag `2`, the caller's
document after the call (`tdAC`) differs from the original (`tdC`) — its
container image has been mutated in place through the alias. -/
theorem transform_not_pure_counterexample :
    update_td tdC "2" = Except.ok (cleanC, tdAC) ∧ tdAC ≠ tdC :=
  ⟨rfl, by simp [tdAC, tdC]⟩

/-- C3 (amended): the output's `containerDefinitions` is an alias of the
input's sequence, and the transform mutates each container's `image` in
place, so after the call the caller's document holds exactly the retagged
container sequence stored in the clean document; every key of the input
other than `containerDefinitions` is unchanged, and the key set and order
of the input are preserved. -/
theorem transform_aliases_input (td : JVal) (tag : String) (clean tdA : JVal)
    (h : update_td td tag = Except.ok (clean, tdA)) :
    ∃ tfs cds', td = JVal.obj tfs ∧
      tdA = JVal.obj (setKey "containerDefinitions" cds' tfs) ∧
      (∃ cfs, clean = JVal.obj cfs ∧ lookupKey "containerDefinitions" cfs = some cds') ∧
      lookupKey "containerDefinitions" (setKey "containerDefinitions" cds' tfs) = some cds' ∧
      (∀ k, k ≠ "containerDefinitions" →
        lookupKey k (setKey "containerDefinitions" cds' tfs) = lookupKey k tfs) ∧
      (setKey "containerDefinitions" cds' tfs).map Prod.fst = tfs.map Prod.fst := by
  obtain ⟨tfs, fam, cds, cds', rfl, hfam, hcds, hrt, rfl, rfl⟩ :=
    update_td_ok_elim td tag clean tdA h
  exact ⟨tfs, cds', rfl, rfl, ⟨_, rfl, by simp [lookupKey]⟩,
    lookupKey_setKey_self _ _ _, fun k hk => lookupKey_setKey_ne _ _ _ _ hk,
    map_fst_setKey _ _ _ (by simp [hcds])⟩

/-- C3 (amended) witness: the aliasing property evaluated on `tdC`. -/
theorem transform_aliases_input_witness :
    ∃ tfs cds', tdC = JVal.obj tfs ∧
      tdAC = JVal.obj (setKey "containerDefinitions" cds' tfs) ∧
      (∃ cfs, cleanC = JVal.obj cfs ∧ lookupKey "containerDefinitions" cfs = some cds') ∧
      lookupKey "containerDefinitions" (setKey "containerDefinitions" cds' tfs) = some cds' ∧
      (∀ k, k ≠ "containerDefinitions" →
        lookupKey k (setKey "containerDefinitions" cds' tfs) = lookupKey k tfs) ∧
      (setKey "containerDefinitions" cds' tfs).map Prod.fst = tfs.map Prod.fst :=
  transform_aliases_input tdC "2" cleanC tdAC rfl

/-! ## Lookups on the clean document -/

theorem lookupKey_clean_opt (fam cds' vol : JVal) (tfs : List (String × JVal))
    (f : String) (hf : f ∈ api_fields) :
    lookupKey f (("family", fam) :: ("containerDefinitions", cds') :: ("volumes", vol)
      :: optFields tfs) = optField tfs f := by
  have hne : ¬("family" = f) ∧ ¬("containerDefinitions" = f) ∧ ¬("volumes" = f) := by
    fin_cases hf <;> exact ⟨by decide, by decide, by decide⟩
  simp only [lookupKey, if_neg hne.1, if_neg hne.2.1, if_neg hne.2.2]
  exact lookupKey_optFields tfs f hf

theorem optField_clean (fam cds' vol : JVal) (tfs : List (String × JVal))
    (f : String) (hf : f ∈ api_fields) :
    optField (("family", fam) :: ("containerDefinitions", cds') :: ("volumes", vol)
      :: optFields tfs) f = optField tfs f := by
  show (match lookupKey f (("family", fam) :: ("containerDefinitions", cds')
      :: ("volumes", vol) :: optFields tfs) with
    | some v => if isNull v then none else some v
    | none => none) = optField tfs f
  rw [lookupKey_clean_opt fam cds' vol tfs f hf]
  cases ho : optField tfs f with
  | none => rfl
  | some v =>
    have hv := (optField_ne_null tfs f v ho).2
    simp [(isNull_eq_false_iff v).mpr hv]

theorem optFields_clean (fam cds' vol : JVal) (tfs : List (String × JVal)) :
    optFields (("family", fam) :: ("containerDefinitions", cds') :: ("volumes", vol)
      :: optFields tfs) = optFields tfs := by
  conv_lhs => rw [optFields]
  conv_rhs => rw [optFields]
  exact List.filterMap_congr
    (fun f hf => by rw [optField_clean fam cds' vol tfs f hf])

/-! ## Claim C9 -/

/-- C9: the transform modifies only the `image` field of each container
definition: the family value and the volumes value (the input's, or the
empty sequence when absent) carry over, each present-and-non-null optional
field carries over with its input value, the containers keep their number
and order, and within each container every key other than `image` keeps
its value (and the key set and order are preserved). -/
theorem transform_frame (tag : String) (clean tdA : JVal) (tfs : List (String × JVal))
    (h : update_td (JVal.obj tfs) tag = Except.ok (clean, tdA)) :
    ∃ cfs, clean = JVal.obj cfs ∧
      lookupKey "family" cfs = lookupKey "family" tfs ∧
      lookupKey "volumes" cfs = some ((lookupKey "volumes" tfs).getD (JVal.arr [])) ∧
      (∀ f ∈ api_fields, lookupKey f cfs = optField tfs f) ∧
      (∀ cds : List JVal, lookupKey "containerDefinitions" tfs = some (JVal.arr cds) →
        ∃ cds', lookupKey "containerDefinitions" cfs = some (JVal.arr cds') ∧
          cds'.length = cds.length ∧
          List.Forall₂ (fun cd cd' => ∃ gfs gfs', cd = JVal.obj gfs ∧ cd' = JVal.obj gfs' ∧
            gfs'.map Prod.fst = gfs.map Prod.fst ∧
            (∀ k, k ≠ "image" → lookupKey k gfs' = lookupKey k gfs)) cds cds') := by
  obtain ⟨tfs', fam, cds0, cds'v, heq, hfam, hcds0, hrt, rfl, rfl⟩ :=
    update_td_ok_elim _ tag clean tdA h
  injection heq with htfs
  subst htfs
  refine ⟨_, rfl, ?_, by simp [lookupKey], ?_, ?_⟩
  · simp [lookupKey, hfam]
  · intro f hf
    simpa using lookupKey_clean_opt fam cds'v ((lookupKey "volumes" tfs).getD (JVal.arr []))
      tfs f hf
  · intro cds hcds
    rw [hcds0] at hcds
    injection hcds with hc
    subst hc
    obtain ⟨cds', hrl, rfl⟩ := retagContainers_arr_elim cds tag cds'v hrt
    have hfa := retagList_forall₂ tag cds cds' hrl
    refine ⟨cds', by simp [lookupKey], (hfa.length_eq).symm, ?_⟩
    refine hfa.imp (fun a b hab => ?_)
    obtain ⟨gfs, s, rfl, himg, rfl⟩ := retagCD_ok_elim a tag b hab
    exact ⟨gfs, _, rfl, rfl, map_fst_setKey _ _ _ (by simp [himg]),
      fun k hk => lookupKey_setKey_ne _ _ _ _ hk⟩

/-- C9 witness: the frame property evaluated on `tdW`. -/
theorem transform_frame_witness :
    ∃ cfs, cleanW = JVal.obj cfs ∧
      lookupKey "family" cfs = lookupKey "family" tdWfs ∧
      lookupKey "volumes" cfs = some ((lookupKey "volumes" tdWfs).getD (JVal.arr [])) ∧
      (∀ f ∈ api_fields, lookupKey f cfs = optField tdWfs f) ∧
      (∀ cds : List JVal, lookupKey "containerDefinitions" tdWfs = some (JVal.arr cds) →
        ∃ cds', lookupKey "containerDefinitions" cfs = some (JVal.arr cds') ∧
          cds'.length = cds.length ∧
          List.Forall₂ (fun cd cd' => ∃ gfs gfs', cd = JVal.obj gfs ∧ cd' = JVal.obj gfs' ∧
            gfs'.map Prod.fst = gfs.map Prod.fst ∧
            (∀ k, k ≠ "image" → lookupKey k gfs' = lookupKey k gfs)) cds cds') :=
  transform_frame "abc123" cleanW tdAW tdWfs rfl

/-! ## Claim C8 -/

/-- C8: the transform is idempotent in the tag: whenever it succeeds on a
document, running it again on the clean output with the same (non-empty)
tag succeeds and returns the very same clean document. -/
theorem transform_idempotent (td : JVal) (tag : String) (clean tdA : JVal)
    (_htag : tag ≠ "") (h : update_td td tag = Except.ok (clean, tdA)) :
    ∃ tdA₂, update_td clean tag = Except.ok (clean, tdA₂) := by
  obtain ⟨tfs, fam, cds, cds', rfl, hfam, hcds, hrt, rfl, rfl⟩ :=
    update_td_ok_elim td tag clean tdA h
  have hrt2 := retagContainers_idem cds cds' tag hrt
  refine ⟨JVal.obj (setKey "containerDefinitions" cds'
    (("family", fam) :: ("containerDefinitions", cds')
      :: ("volumes", (lookupKey "volumes" tfs).getD (JVal.arr [])) :: optFields tfs)), ?_⟩
  simp only [List.cons_append, List.nil_append]
  have l1 : lookupKey "family" (("family", fam) :: ("containerDefinitions", cds')
      :: ("volumes", (lookupKey "volumes" tfs).getD (JVal.arr [])) :: optFields tfs)
      = some fam := by simp [lookupKey]
  have l2 : lookupKey "containerDefinitions" (("family", fam) :: ("containerDefinitions", cds')
      :: ("volumes", (lookupKey "volumes" tfs).getD (JVal.arr [])) :: optFields tfs)
      = some cds' := by simp [lookupKey]
  have l3 : lookupKey "volumes" (("family", fam) :: ("containerDefinitions", cds')
      :: ("volumes", (lookupKey "volumes" tfs).getD (JVal.arr [])) :: optFields tfs)
      = some ((lookupKey "volumes" tfs).getD (JVal.arr [])) := by simp [lookupKey]
  simp only [update_td, l1, l2, l3, hrt2, Option.getD_some,
    optFields_clean fam cds' ((lookupKey "volumes" tfs).getD (JVal.arr [])) tfs,
    List.cons_append, List.nil_append]

/-- C8 witness: idempotence evaluated on `tdW` with tag `abc123`. -/
theorem transform_idempotent_witness :
    ∃ tdA₂, update_td cleanW "abc123" = Except.ok (cleanW, tdA₂) :=
  transform_idempotent tdW "abc123" cleanW tdAW (by decide) rfl

/-! ## Claims C6 and C7: the deploy orchestrator -/

theorem deploy_describe_err (env : Env) (s e : String)
    (h : env.describe s = ExtResult.err e) :
    deploy env s = Except.ok (DeployOutcome.describeFailed e) := by
  simp [deploy, h]

theorem deployAll_cons_ok (env : Env) (s : String) (rest : List String) (r : DeployOutcome)
    (h : deploy env s = Except.ok r) :
    deployAll env (s :: rest) = Except.map (List.cons r) (deployAll env rest) := by
  simp only [deployAll, h]
  cases hd : deployAll env rest <;> simp [Except.map]

/-- C7: when an external call fails for one service the orchestrator ends
that service's deploy gracefully with a diagnostic and still attempts
every subsequent service in order: a failed describe call yields the
graceful `describeFailed` outcome carrying the error text, any graceful
outcome for the head service makes the batch result exactly that outcome
consed onto the remaining services' results, and in the concrete
`svc-a`/`svc-b` scenario `svc-b` is still attempted. -/
theorem orchestrator_continues_after_failure :
    (∀ (env : Env) (s e : String), env.describe s = ExtResult.err e →
      deploy env s = Except.ok (DeployOutcome.describeFailed e) ∧
      deployReport s (DeployOutcome.describeFailed e) = "Error describing TD: " ++ e)
    ∧ (∀ (env : Env) (s : String) (rest : List String) (r : DeployOutcome),
        deploy env s = Except.ok r →
        deployAll env (s :: rest) = Except.map (List.cons r) (deployAll env rest))
    ∧ (∀ (env : Env) (e : String), env.describe "svc-a" = ExtResult.err e →
        deployAll env ["svc-a", "svc-b"]
          = Except.map (fun r => [DeployOutcome.describeFailed e, r]) (deploy env "svc-b")) := by
  refine ⟨fun env s e h => ⟨deploy_describe_err env s e h, rfl⟩,
    deployAll_cons_ok, ?_⟩
  intro env e h
  rw [deployAll_cons_ok env "svc-a" ["svc-b"] _ (deploy_describe_err env "svc-a" e h)]
  cases hd : deploy env "svc-b" with
  | error e' => simp [deployAll, hd, Except.map]
  | ok r => simp [deployAll, hd, Except.map]

/-- C7 witness: in the all-calls-fail environment `envA`, the failure of
`svc-a`'s describe call still leaves `svc-b` attempted. -/
theorem orchestrator_continues_after_failure_witness :
    deployAll envA ["svc-a", "svc-b"]
      = Except.map (fun r => [DeployOutcome.describeFailed "boom", r]) (deploy envA "svc-b") :=
  orchestrator_continues_after_failure.2.2 envA "boom" rfl

/-- C6 counterexample: an input that triggers the missing-required-field
error kind does crash the program with an unhandled fault: in `envC` the
described task definition lacks `family`, the resulting `KeyError` escapes
`deploy` uncaught, the whole run aborts exceptionally and the second
service is never attempted — not a printed diagnostic with graceful
continuation. -/
theorem unhandled_missing_field_crash_counterexample :
    deployAll envC ["svc-a", "svc-b"] = Except.error (PyErr.keyError "family") := rfl

/-- C6 (amended): failures of the three external calls are handled
gracefully — each produces a printed diagnostic outcome and an early
return for that service only — but a missing required field raises an
uncaught `KeyError` that crashes the whole run (and an empty tag raises
nothing at all, since the tag is never validated). -/
theorem external_failures_graceful_missing_field_crashes :
    (∀ (env : Env) (s e : String), env.describe s = ExtResult.err e →
      deploy env s = Except.ok (DeployOutcome.describeFailed e))
    ∧ (∀ (env : Env) (s e : String) (data td : JVal) (r : JVal × JVal),
        env.describe s = ExtResult.ok data →
        getItem data "taskDefinition" = Except.ok td →
        update_td td "202601151258" = Except.ok r →
        env.register r.1 = ExtResult.err e →
        deploy env s = Except.ok (DeployOutcome.registerFailed e))
    ∧ (∀ (env : Env) (s e : String) (data td : JVal) (r : JVal × JVal)
        (reg_data tdo arn : JVal),
        env.describe s = ExtResult.ok data →
        getItem data "taskDefinition" = Except.ok td →
        update_td td "202601151258" = Except.ok r →
        env.register r.1 = ExtResult.ok reg_data →
        getItem reg_data "taskDefinition" = Except.ok tdo →
        getItem tdo "taskDefinitionArn" = Except.ok arn →
        env.updateService s arn = ExtResult.err e →
        deploy env s = Except.ok (DeployOutcome.updateFailed e))
    ∧ deployAll envC ["svc-a", "svc-b"] = Except.error (PyErr.keyError "family") := by
  refine ⟨fun env s e h => deploy_describe_err env s e h, ?_, ?_, rfl⟩
  · intro env s e data td r h1 h2 h3 h4
    simp [deploy, h1, h2, h3, h4]
  · intro env s e data td r reg_data tdo arn h1 h2 h3 h4 h5 h6 h7
    simp [deploy, h1, h2, h3, h4, h5, h6, h7]

/-- C6 (amended) witness: graceful describe-failure handling evaluated in
`envA`, together with the concrete crash in `envC`. -/
theorem external_failures_graceful_missing_field_crashes_witness :
    deploy envA "svc-a" = Except.ok (DeployOutcome.describeFailed "boom") ∧
    deployAll envC ["svc-a", "svc-b"] = Except.error (PyErr.keyError "family") :=
  ⟨external_failures_graceful_missing_field_crashes.1 envA "svc-a" "boom" rfl,
   external_failures_graceful_missing_field_crashes.2.2.2⟩

end NSculpt
